import Mathlib

/-!
Verification of the Deal Desk OS core: guardrail policy evaluation,
idempotent financial operations, invoice staging, payment settlement,
and the policy-editor frontend helpers.

The frontend sources (client/) are embedded directly.  The FastAPI
backend (server/app) is not part of the repository snapshot; the
components it implements (IdempotencyGuard, InvoiceStagingPipeline,
PaymentSettlementStateMachine, PolicyStore, GuardrailEvaluator,
PolicySimulationEngine) are modelled from the specification, as noted
on each definition.
-/

namespace DealDesk

/-- Time-to-cash in hours shown on the deal details page
(client/src/pages/DealDetailsPage.tsx, `timeToCashHours`): when both
timestamps (epoch milliseconds) are present, the difference in
milliseconds divided by 3,600,000, clamped below at 0; otherwise null. -/
def timeToCashHours (quote_generated_at payment_collected_at : Option ℤ) : Option ℚ :=
  match quote_generated_at, payment_collected_at with
  | some q, some p => some (max 0 (((p : ℚ) - (q : ℚ)) / 3600000))
  | _, _ => none

/-- Local state of the JSON configuration editor
(client/src/components/policies/JsonEditor.tsx): the text shown in the
text field and the parse-error banner. -/
structure EditorState where
  editorValue : String
  error : Option String
deriving Repr, DecidableEq

/-- One call of `handleEditorChange` from
client/src/components/policies/JsonEditor.tsx.  The builtin `JSON.parse`
is abstracted as the function `parse`, returning the thrown message on
failure.  Returns the updated local state together with the value passed
to `onChange` (`none` when `onChange` is not called). -/
def handleEditorChange {α : Type} (parse : String → Except String α)
    (readOnly : Bool) (st : EditorState) (newValue : String) :
    EditorState × Option α :=
  let st1 : EditorState := { st with editorValue := newValue }
  if readOnly then (st1, none)
  else
    match parse newValue with
    | Except.ok parsed => ({ st1 with error := none }, some parsed)
    | Except.error m => ({ st1 with error := some ("Invalid JSON: " ++ m) }, none)

/-- A stand-in concrete parser used to exercise `handleEditorChange` on
closed inputs. -/
def demoParse (s : String) : Except String Nat :=
  if s = "42" then Except.ok 42 else Except.error "Unexpected token"

/-- Payment status values (README "Payment Processing":
PENDING → SUCCEEDED/FAILED/ROLLED_BACK). -/
inductive PaymentStatus where
  | PENDING
  | SUCCEEDED
  | FAILED
  | ROLLED_BACK
deriving Repr, DecidableEq

/-- Events driving the payment settlement state machine: provider
callbacks and the rollback operation. -/
inductive PaymentEvent where
  | providerSucceeded
  | providerFailed
  | rollback
deriving Repr, DecidableEq

/-- Error taxonomy of the core (spec section 7). -/
inductive OperationError where
  | ValidationError
  | ConflictError
  | InvalidStateTransition
deriving Repr, DecidableEq

/-- Modelled from the spec: the PaymentSettlementStateMachine transition
function (spec section 4.6; the backend server/app implementing it is not
in the repository snapshot).  The only transitions performed are
PENDING → SUCCEEDED, PENDING → FAILED and SUCCEEDED → ROLLED_BACK; every
other requested move fails with InvalidStateTransition. -/
def paymentStep (s : PaymentStatus) (e : PaymentEvent) :
    Except OperationError PaymentStatus :=
  match s, e with
  | .PENDING, .providerSucceeded => Except.ok .SUCCEEDED
  | .PENDING, .providerFailed => Except.ok .FAILED
  | .SUCCEEDED, .rollback => Except.ok .ROLLED_BACK
  | _, _ => Except.error .InvalidStateTransition

/-- Modelled from the spec: `rollback(payment_id)` on a payment in state
`s` (spec section 4.6). -/
def rollbackPayment (s : PaymentStatus) : Except OperationError PaymentStatus :=
  paymentStep s PaymentEvent.rollback

/-- A record in the idempotency ledger for one key: an in-flight lease or
a persisted terminal result, each carrying the payload fingerprint the key
was first used with. -/
inductive GuardEntry where
  | inFlight (payload_fingerprint : String) (expires_at : ℕ)
  | terminal (payload_fingerprint : String) (result : String)
deriving Repr, DecidableEq

/-- The payload fingerprint a ledger entry was recorded with. -/
def GuardEntry.fingerprintOf : GuardEntry → String
  | .inFlight fp _ => fp
  | .terminal fp _ => fp

/-- The idempotency ledger, serialized per key (spec section 5). -/
structure GuardState where
  records : List (String × GuardEntry)
deriving Repr, DecidableEq

/-- The ledger entry recorded for `key`, if any. -/
def GuardState.lookup (g : GuardState) (key : String) : Option GuardEntry :=
  match g.records.find? (fun r => r.1 == key) with
  | some r => some r.2
  | none => none

/-- Record `e` for `key`, replacing any prior entry. -/
def GuardState.put (g : GuardState) (key : String) (e : GuardEntry) : GuardState :=
  ⟨(key, e) :: g.records.filter (fun r => r.1 != key)⟩

/-- Outcome of `IdempotencyGuard.begin` (spec section 4.4). -/
inductive BeginResult where
  | proceed
  | cached (result : String)
  | conflictError
  | inProgress
deriving Repr, DecidableEq

/-- Modelled from the spec: `IdempotencyGuard.begin(key, payload_fingerprint)`
(spec section 4.4; the backend server/app implementing the guard is not in
the repository snapshot).  No record: create an in-flight lease and
proceed.  Existing record with a different fingerprint: ConflictError
(section 6: never silently accepted).  Terminal record with the same
fingerprint: return the cached result.  Unexpired in-flight lease:
InProgress; an expired lease lets a new attempt proceed. -/
def guardBegin (g : GuardState) (key payload_fingerprint : String) (now ttl : ℕ) :
    BeginResult × GuardState :=
  match g.lookup key with
  | none => (.proceed, g.put key (.inFlight payload_fingerprint (now + ttl)))
  | some e =>
    if e.fingerprintOf ≠ payload_fingerprint then (.conflictError, g)
    else
      match e with
      | .terminal _ r => (.cached r, g)
      | .inFlight _ expires_at =>
        if now < expires_at then (.inProgress, g)
        else (.proceed, g.put key (.inFlight payload_fingerprint (now + ttl)))

/-- Round a money amount to cents, half away from zero for nonnegative
inputs (DECIMAL(12,2) columns in the invoice migration). -/
def round2 (x : ℚ) : ℚ := (⌊x * 100 + 1 / 2⌋ : ℚ) / 100

/-- Per-line input data taken from the deal. -/
structure LineItemInput where
  description : String
  quantity : ℚ
  unit_price : ℚ
  discount_percent : ℚ
deriving Repr, DecidableEq

/-- A computed invoice staging line item
(invoice_staging_line_items in the migration script). -/
structure LineItem where
  line_number : ℕ
  description : String
  quantity : ℚ
  unit_price : ℚ
  discount_percent : ℚ
  line_total : ℚ
deriving Repr, DecidableEq

/-- Deal data consumed by the staging pipeline. -/
structure DealData where
  id : String
  customer_name : String
  line_inputs : List LineItemInput
  tax_rate : ℚ
deriving Repr, DecidableEq

/-- Modelled from the spec: line-item computation of `stage`
(spec section 4.5): each line total is quantity x unit price less the line
discount, rounded to cents. -/
def computeLineItems (inputs : List LineItemInput) : List LineItem :=
  inputs.enum.map fun p =>
    { line_number := p.1 + 1
      description := p.2.description
      quantity := p.2.quantity
      unit_price := p.2.unit_price
      discount_percent := p.2.discount_percent
      line_total := round2 (p.2.quantity * p.2.unit_price * (1 - p.2.discount_percent / 100)) }

/-- Invoice staging status (invoice_staging.status in the migration;
spec data model: draft/submitted/approved/rejected/posted). -/
inductive StagingStatus where
  | draft
  | submitted
  | approved
  | rejected
  | posted
deriving Repr, DecidableEq

/-- An invoice_staging row (migration script part_002), restricted to the
fields the claims are about. -/
structure StagingRow where
  id : ℕ
  deal_id : String
  idempotency_key : String
  status : StagingStatus
  line_items : List LineItem
  subtotal : ℚ
  tax_amount : ℚ
  total_amount : ℚ
deriving Repr, DecidableEq

/-- Sum of the line_total values of a list of line items. -/
def sumLineTotals (ls : List LineItem) : ℚ := (ls.map LineItem.line_total).sum

/-- Modelled from the spec: the draft InvoiceStaging row `stage` persists
on "proceed" (spec section 4.5): line items, subtotal as the sum of line
totals, tax rounded to cents, total = subtotal + tax. -/
def buildDraftRow (rid : ℕ) (deal : DealData) (key : String) : StagingRow :=
  let items := computeLineItems deal.line_inputs
  let sub := sumLineTotals items
  let tax := round2 (sub * deal.tax_rate)
  { id := rid
    deal_id := deal.id
    idempotency_key := key
    status := .draft
    line_items := items
    subtotal := sub
    tax_amount := tax
    total_amount := sub + tax }

/-- The fixed rounding epsilon of the financial invariant (one cent). -/
def epsRounding : ℚ := 1 / 100

/-- The financial invariant of InvoiceStaging rows (spec data model):
subtotal + tax_amount equals total_amount within the rounding epsilon, and
the line totals sum to the subtotal. -/
def StagingInvariant (row : StagingRow) : Prop :=
  |row.subtotal + row.tax_amount - row.total_amount| ≤ epsRounding ∧
  sumLineTotals row.line_items = row.subtotal

/-- Modelled from the spec: `submit`, a state transition gated on valid
predecessor state (spec section 4.5). -/
def submitStaging (row : StagingRow) : Except OperationError StagingRow :=
  match row.status with
  | .draft => Except.ok { row with status := .submitted }
  | _ => Except.error .InvalidStateTransition

/-- Modelled from the spec: `approve`, a state transition gated on valid
predecessor state (spec section 4.5). -/
def approveStaging (row : StagingRow) : Except OperationError StagingRow :=
  match row.status with
  | .submitted => Except.ok { row with status := .approved }
  | _ => Except.error .InvalidStateTransition

/-- Modelled from the spec: rejection of a submitted staging row. -/
def rejectStaging (row : StagingRow) : Except OperationError StagingRow :=
  match row.status with
  | .submitted => Except.ok { row with status := .rejected }
  | _ => Except.error .InvalidStateTransition

/-- Modelled from the spec: the successful-adapter-call half of
`post(staging_id)` (spec section 4.5): marks an approved staging row
posted. -/
def postStaging (row : StagingRow) : Except OperationError StagingRow :=
  match row.status with
  | .approved => Except.ok { row with status := .posted }
  | _ => Except.error .InvalidStateTransition

/-- Modelled from the spec: idempotency-key derivation of `stage`
(spec section 4.5): a deterministic injective encoding of
(deal_id, trigger_event_id), standing for `hash(deal_id, trigger_event_id)`. -/
def stagingKey (deal_id trigger_event_id : String) : String :=
  deal_id ++ ":" ++ trigger_event_id

/-- State of the InvoiceStagingPipeline: the persisted staging rows and
the next fresh row id. -/
structure PipelineState where
  rows : List StagingRow
  nextId : ℕ
deriving Repr, DecidableEq

/-- The staging row recorded under idempotency key `key`, if any. -/
def findByKey (rows : List StagingRow) (key : String) : Option StagingRow :=
  rows.find? (fun r => r.idempotency_key == key)

/-- Modelled from the spec: `stage(deal, trigger_event_id)`
(spec section 4.5; the backend server/app implementing the pipeline is
not in the repository snapshot).  Derives the idempotency key; when a row
already exists under that key, returns the existing row's id without
writing; otherwise persists a fresh draft row.  Returns the staging id and
the updated pipeline state. -/
def stage (st : PipelineState) (deal : DealData) (trigger_event_id : String) :
    ℕ × PipelineState :=
  let key := stagingKey deal.id trigger_event_id
  match findByKey st.rows key with
  | some row => (row.id, st)
  | none =>
    (st.nextId,
      { rows := buildDraftRow st.nextId deal key :: st.rows, nextId := st.nextId + 1 })

/-- Pairwise distinctness of idempotency keys across staging rows
(idempotency_key is UNIQUE in the migration script). -/
def KeysUnique (rows : List StagingRow) : Prop :=
  List.Pairwise (fun a b => a.idempotency_key ≠ b.idempotency_key) rows

/-- Deal risk tier (types/policy.ts simulation request: low/medium/high). -/
inductive RiskTier where
  | low
  | medium
  | high
deriving Repr, DecidableEq

/-- Guardrail configuration surface (spec section 6): the risk-based
discount ceiling table, the secondary escalation threshold, and the
payment-terms ceiling. -/
structure GuardrailConfig where
  risk_ceiling_low : ℚ
  risk_ceiling_medium : ℚ
  risk_ceiling_high : ℚ
  secondary_escalation_threshold : ℚ
  payment_terms_ceiling : ℕ
deriving Repr, DecidableEq

/-- Modelled from the spec: the default configuration — built-in discount
ceilings low=30, medium=20, high=10 (spec section 4.2 and README) and a
default payment-terms ceiling.  The secondary escalation threshold is a
relative excess over the limit, calibrated to the spec's test vectors
(risk=medium at 25% stays at finance_review; risk=high at 15% adds
executive_approval): escalation beyond one quarter above the limit. -/
def defaultConfig : GuardrailConfig :=
  { risk_ceiling_low := 30
    risk_ceiling_medium := 20
    risk_ceiling_high := 10
    secondary_escalation_threshold := 1 / 4
    payment_terms_ceiling := 60 }

/-- The discount ceiling the built-in table assigns to a risk tier. -/
def ceilingFor (cfg : GuardrailConfig) : RiskTier → ℚ
  | .low => cfg.risk_ceiling_low
  | .medium => cfg.risk_ceiling_medium
  | .high => cfg.risk_ceiling_high

/-- Proposed deal pricing terms plus risk tier (spec section 4.2);
`segment` is the subset key that scoped policies may target. -/
structure DealTerms where
  amount : ℚ
  discount_percent : ℚ
  payment_terms_days : ℕ
  risk : RiskTier
  segment : String
deriving Repr, DecidableEq

/-- Approval chain steps produced by guardrail violations. -/
inductive ApprovalStep where
  | finance_review
  | executive_approval
deriving Repr, DecidableEq

/-- Guardrail verdict (spec section 4.2). -/
inductive Verdict where
  | pass
  | violated (reason : String) (required_approval_steps : List ApprovalStep)
deriving Repr, DecidableEq

/-- Policy types (client/src/types/policy.ts, PolicyType). -/
inductive PolicyType where
  | pricing
  | discount
  | payment_terms
  | price_floor
  | approval_matrix
  | sla
  | custom
deriving Repr, DecidableEq

/-- Policy lifecycle status (client/src/types/policy.ts, PolicyStatus). -/
inductive PolicyStatus where
  | draft
  | active
  | inactive
  | archived
  | superseded
deriving Repr, DecidableEq

/-- Typed limit-bearing policy configuration (spec data model and design
notes: a tagged union keyed by policy type), restricted to the variants
the evaluator consumes. -/
inductive PolicyRule where
  | discountCeiling (limit : ℚ)
  | paymentTermsCeiling (limit : ℕ)
deriving Repr, DecidableEq

/-- A stored policy version (spec data model; fields mirrored from the
Policy interface in client/src/types/policy.ts, with `lineage` naming the
version chain linked there by parent_policy_id). -/
structure StoredPolicy where
  id : ℕ
  lineage : ℕ
  name : String
  policy_type : PolicyType
  scope : Option String
  priority : ℤ
  version : ℕ
  status : PolicyStatus
  rule : PolicyRule
  activated_at : ℕ
deriving Repr, DecidableEq

/-- Whether a policy's scope covers the deal: a wildcard scope covers all
deals, a narrower scope only its own segment. -/
def appliesTo (p : StoredPolicy) (terms : DealTerms) : Bool :=
  match p.scope with
  | none => true
  | some s => s == terms.segment

/-- Scope breadth: narrower scopes order before the wildcard scope. -/
def scopeRank (p : StoredPolicy) : ℕ :=
  match p.scope with
  | some _ => 0
  | none => 1

/-- Modelled from the spec: candidate evaluation order (spec section 4.2):
priority descending, then narrower scope before wildcard scope, then more
recent activation. -/
def candBefore (a b : StoredPolicy) : Bool :=
  if a.priority = b.priority then
    if scopeRank a = scopeRank b then decide (b.activated_at ≤ a.activated_at)
    else decide (scopeRank a < scopeRank b)
  else decide (b.priority < a.priority)

/-- Insert a policy into a list already ordered by `candBefore`. -/
def insertOrdered (a : StoredPolicy) : List StoredPolicy → List StoredPolicy
  | [] => [a]
  | b :: rest => if candBefore a b then a :: b :: rest else b :: insertOrdered a rest

/-- Insertion sort by the candidate evaluation order. -/
def sortCandidates : List StoredPolicy → List StoredPolicy
  | [] => []
  | a :: rest => insertOrdered a (sortCandidates rest)

/-- Modelled from the spec: required approval steps derived from how far
the observed value exceeds the limit (spec section 4.2): within the
secondary escalation threshold (relative to the limit), finance review
suffices; beyond it, executive approval follows finance review. -/
def stepsFor (cfg : GuardrailConfig) (observed limit : ℚ) : List ApprovalStep :=
  if observed - limit ≤ cfg.secondary_escalation_threshold * limit then
    [.finance_review]
  else [.finance_review, .executive_approval]

/-- Format a nonnegative rational with one decimal digit, as the
violation messages do (25 becomes "25.0"); the integer division floors
ten times the value. -/
def fmt1 (q : ℚ) : String :=
  let t : ℕ := ((q.num * 10) / (q.den : ℤ)).toNat
  toString (t / 10) ++ "." ++ toString (t % 10)

/-- Modelled from the spec: the formatted violation reason naming the
offending field, observed value and limit (spec section 4.2). -/
def violationReason (field : String) (observed limit : ℚ) (unitStr : String) : String :=
  field ++ " " ++ fmt1 observed ++ unitStr ++ " exceeds " ++ fmt1 limit ++ unitStr

/-- Modelled from the spec: check one policy's configured limit against
the deal terms; a violated limit yields the verdict (spec section 4.2). -/
def checkRule (cfg : GuardrailConfig) (terms : DealTerms) : PolicyRule → Option Verdict
  | .discountCeiling limit =>
    if limit < terms.discount_percent then
      some (.violated
        (violationReason "discount_percent" terms.discount_percent limit "%")
        (stepsFor cfg terms.discount_percent limit))
    else none
  | .paymentTermsCeiling limit =>
    if limit < terms.payment_terms_days then
      some (.violated
        (violationReason "payment_terms_days" (terms.payment_terms_days : ℚ)
          (limit : ℚ) " days")
        (stepsFor cfg (terms.payment_terms_days : ℚ) (limit : ℚ)))
    else none

/-- The first candidate policy whose configured limits are violated
determines the verdict (spec section 4.2). -/
def firstViolation (cfg : GuardrailConfig) (terms : DealTerms) :
    List StoredPolicy → Option Verdict
  | [] => none
  | p :: rest =>
    match checkRule cfg terms p.rule with
    | some v => some v
    | none => firstViolation cfg terms rest

/-- Modelled from the spec: the built-in fallback applied when no explicit
policy matches — the risk-based discount ceiling table and the default
payment-terms ceiling (spec section 4.2). -/
def builtinVerdict (cfg : GuardrailConfig) (terms : DealTerms) : Verdict :=
  if ceilingFor cfg terms.risk < terms.discount_percent then
    .violated
      (violationReason "discount_percent" terms.discount_percent
        (ceilingFor cfg terms.risk) "%")
      (stepsFor cfg terms.discount_percent (ceilingFor cfg terms.risk))
  else if cfg.payment_terms_ceiling < terms.payment_terms_days then
    .violated
      (violationReason "payment_terms_days" (terms.payment_terms_days : ℚ)
        (cfg.payment_terms_ceiling : ℚ) " days")
      (stepsFor cfg (terms.payment_terms_days : ℚ) (cfg.payment_terms_ceiling : ℚ))
  else .pass

/-- Modelled from the spec: the GuardrailEvaluator (spec section 4.2; the
backend server/app implementing it is not in the repository snapshot).
Matching active policies are checked in candidate order; when none
matches, the built-in table applies; the first violated limit determines
the verdict; otherwise the deal passes. -/
def evaluateGuardrail (cfg : GuardrailConfig) (terms : DealTerms)
    (snapshot : List StoredPolicy) : Verdict :=
  let matching := snapshot.filter (fun p => appliesTo p terms)
  if matching.isEmpty then builtinVerdict cfg terms
  else
    match firstViolation cfg terms (sortCandidates matching) with
    | some v => v
    | none => .pass

/-- State of the PolicyStore: the policy table plus the held activation
locks, one per (type, scope) (spec sections 4.1 and 5). -/
structure StoreState where
  policies : List StoredPolicy
  locks : List (PolicyType × Option String)
deriving Repr, DecidableEq

/-- At most one active policy per (type, scope): no two distinct rows of
the policy table are simultaneously active with the same type and scope. -/
def ActiveUnique (st : StoreState) : Prop :=
  List.Pairwise (fun p q => ¬(p.status = .active ∧ q.status = .active ∧
    p.policy_type = q.policy_type ∧ p.scope = q.scope)) st.policies

/-- Pairwise-distinct policy ids (the table's primary key). -/
def IdsUnique (st : StoreState) : Prop :=
  List.Pairwise (fun p q => p.id ≠ q.id) st.policies

/-- The policy row with the given id, if any. -/
def findPolicy (st : StoreState) (pid : ℕ) : Option StoredPolicy :=
  st.policies.find? (fun p => p.id == pid)

/-- Modelled from the spec: acquiring the exclusive activation lock for
the target's (type, scope) (spec section 4.1).  Fails with ConflictError
when a concurrent caller already holds the lock; acquiring the lock does
not touch the policy table. -/
def beginActivate (st : StoreState) (pid : ℕ) : Except OperationError StoreState :=
  match findPolicy st pid with
  | none => Except.error .ValidationError
  | some p =>
    if (p.policy_type, p.scope) ∈ st.locks then Except.error .ConflictError
    else Except.ok { st with locks := (p.policy_type, p.scope) :: st.locks }

/-- The largest version number recorded in a lineage. -/
def lineageMaxVersion (st : StoreState) (lin : ℕ) : ℕ :=
  (st.policies.filter (fun p => p.lineage == lin)).foldr
    (fun p acc => max p.version acc) 0

/-- The per-row effect of the activation transaction: the target row
becomes active with the next version number in its lineage and the
activation timestamp; a previously active row of the target's
(type, scope) is superseded; every other row is untouched. -/
def commitMap (st : StoreState) (pid now : ℕ) (tgt : StoredPolicy)
    (p : StoredPolicy) : StoredPolicy :=
  if p.id = pid then
    { p with status := .active,
             version := lineageMaxVersion st tgt.lineage + 1,
             activated_at := now }
  else if p.status = .active ∧ p.policy_type = tgt.policy_type ∧
      p.scope = tgt.scope then
    { p with status := .superseded }
  else p

/-- Modelled from the spec: the atomic activation transaction
(spec section 4.1): the prior active policy of the same (type, scope) is
superseded, the target becomes active with the next version number in its
lineage and the activation timestamp, and the lock is released. -/
def commitActivate (st : StoreState) (pid : ℕ) (now : ℕ) :
    Except OperationError StoreState :=
  match findPolicy st pid with
  | none => Except.error .ValidationError
  | some tgt =>
    Except.ok
      { policies := st.policies.map (commitMap st pid now tgt)
        locks := st.locks.filter
          (fun l => decide (l ≠ (tgt.policy_type, tgt.scope))) }

/-- The consistent active-policy snapshot read from the store
(spec section 5). -/
def activeSnapshot (st : StoreState) : List StoredPolicy :=
  st.policies.filter (fun p => p.status == .active)

/-- Modelled from the spec: substituting the proposed, not-yet-active
policy into the snapshot for simulation (spec section 4.7): it stands in
for the active policy of its own (type, scope). -/
def substituteProposed (proposed : StoredPolicy) (snapshot : List StoredPolicy) :
    List StoredPolicy :=
  proposed :: snapshot.filter (fun p =>
    decide (¬(p.policy_type = proposed.policy_type ∧ p.scope = proposed.scope)))

/-- Per-deal verdicts and aggregate violation statistics returned by a
simulation run (spec section 4.7). -/
structure SimulationResult where
  verdicts : List Verdict
  violation_count : ℕ
deriving Repr, DecidableEq

/-- Whether a verdict is a violation. -/
def isViolation : Verdict → Bool
  | .pass => false
  | .violated _ _ => true

/-- Evaluate the test deals against a snapshot, accumulating verdicts and
the violation count. -/
def simGo (cfg : GuardrailConfig) (snap : List StoredPolicy) :
    List DealTerms → SimulationResult
  | [] => { verdicts := [], violation_count := 0 }
  | d :: rest =>
    let v := evaluateGuardrail cfg d snap
    let r := simGo cfg snap rest
    { verdicts := v :: r.verdicts,
      violation_count := (if isViolation v then 1 else 0) + r.violation_count }

/-- Modelled from the spec: PolicySimulationEngine.simulate
(spec section 4.7; the backend server/app implementing it is not in the
repository snapshot): dry-runs the evaluator with the proposed policy
substituted into the store's snapshot against the supplied test deals; the
store is returned untouched — no writes. -/
def runSimulation (st : StoreState) (cfg : GuardrailConfig)
    (proposed : StoredPolicy) (test_deals : List DealTerms) :
    SimulationResult × StoreState :=
  (simGo cfg (substituteProposed proposed (activeSnapshot st)) test_deals, st)

/-- A concrete draft policy version used to exercise activation on
closed inputs. -/
def demoPolicyA : StoredPolicy :=
  ⟨1, 1, "discount v1", .discount, none, 0, 1, .draft, .discountCeiling 20, 0⟩

/-- A second concrete draft policy of the same (type, scope) in another
lineage. -/
def demoPolicyB : StoredPolicy :=
  ⟨2, 2, "discount v2", .discount, none, 0, 1, .draft, .discountCeiling 25, 0⟩

/-- A concrete two-policy store with no lock held. -/
def demoStore : StoreState := ⟨[demoPolicyA, demoPolicyB], []⟩

-- ## Theorems

/-- Claim C10: on the deal details page, time-to-cash in hours is
max(0, (payment_collected_at - quote_generated_at) / 3,600,000), hence
never negative, and it is null whenever either timestamp is absent. -/
theorem timeToCashHours_spec (q p : Option ℤ) :
    (q = none ∨ p = none → timeToCashHours q p = none) ∧
    (∀ tq tp : ℤ, q = some tq → p = some tp →
      timeToCashHours q p = some (max 0 (((tp : ℚ) - (tq : ℚ)) / 3600000)) ∧
      ∀ h : ℚ, timeToCashHours q p = some h → 0 ≤ h) := by
  constructor
  · rintro (rfl | rfl)
    · rfl
    · cases q <;> rfl
  · rintro tq tp rfl rfl
    refine ⟨rfl, ?_⟩
    intro h hh
    have hh2 : max 0 (((tp : ℚ) - (tq : ℚ)) / 3600000) = h := Option.some.inj hh
    rw [← hh2]
    exact le_max_left 0 _

/-- Concrete instance of `timeToCashHours_spec`: a missing quote timestamp
yields null, and two hours elapsed yields a nonnegative value. -/
theorem timeToCashHours_spec_witness :
    timeToCashHours none (some 5) = none ∧ 0 ≤ (2 : ℚ) := by
  constructor
  · exact (timeToCashHours_spec none (some 5)).1 (Or.inl rfl)
  · refine ((timeToCashHours_spec (some 0) (some 7200000)).2 0 7200000 rfl rfl).2 2 ?_
    show some (max 0 ((((7200000 : ℤ) : ℚ) - ((0 : ℤ) : ℚ)) / 3600000)) = some 2
    norm_num

/-- Claim C9: in the policy JSON configuration editor (used with
readOnly = false in PolicyEditor.tsx), `handleEditorChange` passes a value
to `onChange` exactly when the edited text parses; the propagated value is
the parse result; on a parse failure the error message is recorded and
nothing is propagated, so the previously propagated configuration is
unchanged. -/
theorem handleEditorChange_spec {α : Type} (parse : String → Except String α)
    (readOnly : Bool) (st : EditorState) (newValue : String)
    (hro : readOnly = false) :
    ((handleEditorChange parse readOnly st newValue).2 ≠ none ↔
      ∃ v, parse newValue = Except.ok v) ∧
    (∀ v, (handleEditorChange parse readOnly st newValue).2 = some v →
      parse newValue = Except.ok v) ∧
    (∀ m, parse newValue = Except.error m →
      (handleEditorChange parse readOnly st newValue).1.error =
        some ("Invalid JSON: " ++ m) ∧
      (handleEditorChange parse readOnly st newValue).2 = none) := by
  subst hro
  cases hp : parse newValue with
  | ok v =>
    refine ⟨?_, ?_, ?_⟩
    · simp [handleEditorChange, hp]
    · intro w hw
      simp [handleEditorChange, hp] at hw
      rw [hw]
    · intro m hm
      exact absurd hm (by simp)
  | error m0 =>
    refine ⟨?_, ?_, ?_⟩
    · simp [handleEditorChange, hp]
    · intro w hw
      simp [handleEditorChange, hp] at hw
    · intro m hm
      cases hm
      constructor
      · simp [handleEditorChange, hp]
      · simp [handleEditorChange, hp]

/-- Concrete instance of `handleEditorChange_spec`: with a concrete parser,
a non-parsing edit records the error banner and propagates nothing. -/
theorem handleEditorChange_spec_witness :
    false = false ∧
    (handleEditorChange demoParse false ⟨"{}", none⟩ "bad").1.error =
      some ("Invalid JSON: " ++ "Unexpected token") ∧
    (handleEditorChange demoParse false ⟨"{}", none⟩ "bad").2 = none := by
  refine ⟨rfl, ?_⟩
  exact (handleEditorChange_spec demoParse false ⟨"{}", none⟩ "bad" rfl).2.2
    "Unexpected token" (by simp [demoParse])

/-- Claim C3: `rollback` succeeds exactly from SUCCEEDED; from PENDING,
FAILED or ROLLED_BACK it fails with InvalidStateTransition; and the only
transitions the payment state machine ever performs are
PENDING → SUCCEEDED, PENDING → FAILED and SUCCEEDED → ROLLED_BACK. -/
theorem rollbackPayment_spec :
    (∀ s : PaymentStatus, (∃ t, rollbackPayment s = Except.ok t) ↔ s = .SUCCEEDED) ∧
    (∀ s : PaymentStatus, s = .PENDING ∨ s = .FAILED ∨ s = .ROLLED_BACK →
      rollbackPayment s = Except.error .InvalidStateTransition) ∧
    (∀ s e t, paymentStep s e = Except.ok t →
      (s = .PENDING ∧ t = .SUCCEEDED) ∨ (s = .PENDING ∧ t = .FAILED) ∨
      (s = .SUCCEEDED ∧ t = .ROLLED_BACK)) := by
  refine ⟨?_, ?_, ?_⟩
  · intro s
    cases s <;> simp [rollbackPayment, paymentStep]
  · rintro s (rfl | rfl | rfl) <;> rfl
  · intro s e t h
    cases s <;> cases e <;> simp_all [paymentStep]

/-- Concrete instance of `rollbackPayment_spec`: rollback of a PENDING
payment fails with InvalidStateTransition. -/
theorem rollbackPayment_spec_witness :
    (PaymentStatus.PENDING = .PENDING ∨ PaymentStatus.PENDING = .FAILED ∨
      PaymentStatus.PENDING = .ROLLED_BACK) ∧
    rollbackPayment .PENDING = Except.error .InvalidStateTransition :=
  ⟨Or.inl rfl, rollbackPayment_spec.2.1 .PENDING (Or.inl rfl)⟩

/-- Claim C2: `begin(key, payload_fingerprint)` proceeds when no record
exists for the key, returns the cached terminal result without
re-executing (ledger unchanged) when a matching terminal record exists,
fails with ConflictError whenever the key exists with a different
payload fingerprint — never silently accepted — and fails with InProgress
on an unexpired matching in-flight lease. -/
theorem guardBegin_spec (g : GuardState) (key fp : String) (now ttl : ℕ) :
    (g.lookup key = none →
      guardBegin g key fp now ttl =
        (.proceed, g.put key (.inFlight fp (now + ttl)))) ∧
    (∀ fp0 r, g.lookup key = some (.terminal fp0 r) → fp0 = fp →
      guardBegin g key fp now ttl = (.cached r, g)) ∧
    (∀ e, g.lookup key = some e → e.fingerprintOf ≠ fp →
      guardBegin g key fp now ttl = (.conflictError, g)) ∧
    (∀ fp0 t, g.lookup key = some (.inFlight fp0 t) → fp0 = fp → now < t →
      guardBegin g key fp now ttl = (.inProgress, g)) := by
  refine ⟨?_, ?_, ?_, ?_⟩
  · intro h
    simp [guardBegin, h]
  · rintro fp0 r h rfl
    simp [guardBegin, h, GuardEntry.fingerprintOf]
  · intro e h hne
    simp [guardBegin, h, hne]
  · rintro fp0 t h rfl ht
    simp [guardBegin, h, GuardEntry.fingerprintOf, ht]

/-- Concrete instance of `guardBegin_spec`: reusing key "k" with a
different payload fingerprint fails with ConflictError and leaves the
ledger unchanged. -/
theorem guardBegin_spec_witness :
    GuardState.lookup ⟨[("k", GuardEntry.inFlight "f1" 10)]⟩ "k" =
      some (GuardEntry.inFlight "f1" 10) ∧
    GuardEntry.fingerprintOf (GuardEntry.inFlight "f1" 10) ≠ "f2" ∧
    guardBegin ⟨[("k", GuardEntry.inFlight "f1" 10)]⟩ "k" "f2" 0 5 =
      (.conflictError, ⟨[("k", GuardEntry.inFlight "f1" 10)]⟩) := by
  refine ⟨rfl, by decide, ?_⟩
  exact (guardBegin_spec ⟨[("k", GuardEntry.inFlight "f1" 10)]⟩ "k" "f2" 0 5).2.2.1
    (GuardEntry.inFlight "f1" 10) rfl (by decide)

/-- Claim C1: repeating `stage(deal, trigger_event_id)` with the identical
trigger_event_id returns the same staging id and leaves the pipeline state
unchanged — no second draft row; staging preserves pairwise-unique
idempotency keys; and every freshly created row carries the deterministic
key derived from (deal_id, trigger_event_id) and status draft. -/
theorem stage_idempotent (st : PipelineState) (deal : DealData) (trigger_event_id : String) :
    (stage (stage st deal trigger_event_id).2 deal trigger_event_id).1 =
      (stage st deal trigger_event_id).1 ∧
    (stage (stage st deal trigger_event_id).2 deal trigger_event_id).2 =
      (stage st deal trigger_event_id).2 ∧
    (KeysUnique st.rows → KeysUnique (stage st deal trigger_event_id).2.rows) ∧
    (∀ row, row ∈ (stage st deal trigger_event_id).2.rows → row ∉ st.rows →
      row.idempotency_key = stagingKey deal.id trigger_event_id ∧
      row.status = .draft) := by
  cases h : findByKey st.rows (stagingKey deal.id trigger_event_id) with
  | some row =>
    have hst : stage st deal trigger_event_id = (row.id, st) := by
      simp [stage, h]
    refine ⟨?_, ?_, ?_, ?_⟩
    · simp [stage, h]
    · simp [stage, h]
    · intro hu
      rw [hst]
      exact hu
    · intro r hr hnr
      rw [hst] at hr
      exact absurd hr hnr
  | none =>
    have hkey : (buildDraftRow st.nextId deal
        (stagingKey deal.id trigger_event_id)).idempotency_key =
        stagingKey deal.id trigger_event_id := rfl
    have hst : stage st deal trigger_event_id =
        (st.nextId,
          { rows := buildDraftRow st.nextId deal
              (stagingKey deal.id trigger_event_id) :: st.rows,
            nextId := st.nextId + 1 }) := by
      simp [stage, h]
    have hfind2 : findByKey (buildDraftRow st.nextId deal
        (stagingKey deal.id trigger_event_id) :: st.rows)
        (stagingKey deal.id trigger_event_id) =
        some (buildDraftRow st.nextId deal (stagingKey deal.id trigger_event_id)) := by
      simp [findByKey, List.find?_cons_of_pos, hkey]
    have hnotin : ∀ r ∈ st.rows,
        r.idempotency_key ≠ stagingKey deal.id trigger_event_id := by
      intro r hr
      have := List.find?_eq_none.mp h r hr
      simpa using this
    refine ⟨?_, ?_, ?_, ?_⟩
    · simp [stage, h, hfind2]
      rfl
    · simp [stage, h, hfind2]
    · intro hu
      rw [hst]
      refine List.Pairwise.cons ?_ hu
      intro b hb
      rw [hkey]
      exact fun hkb => hnotin b hb hkb.symm
    · intro r hr hnr
      rw [hst] at hr
      rcases List.mem_cons.mp hr with hcase | hcase
      · subst hcase
        exact ⟨rfl, rfl⟩
      · exact absurd hcase hnr

/-- Concrete instance of `stage_idempotent`: staging into an empty
pipeline preserves key uniqueness. -/
theorem stage_idempotent_witness :
    KeysUnique ([] : List StagingRow) ∧
    KeysUnique (stage ⟨[], 0⟩ ⟨"d1", "Acme", [], 0⟩ "e1").2.rows :=
  ⟨List.Pairwise.nil,
    (stage_idempotent ⟨[], 0⟩ ⟨"d1", "Acme", [], 0⟩ "e1").2.2.1 List.Pairwise.nil⟩

/-- Claim C6: every generated InvoiceStaging row satisfies
subtotal + tax_amount = total_amount exactly (hence within the rounding
epsilon) and its line totals sum to the subtotal, and every staging
operation (stage, submit, approve, reject, post) preserves the
invariant. -/
theorem stagingInvariant_spec :
    (∀ (rid : ℕ) (deal : DealData) (key : String),
      (buildDraftRow rid deal key).subtotal + (buildDraftRow rid deal key).tax_amount =
        (buildDraftRow rid deal key).total_amount ∧
      StagingInvariant (buildDraftRow rid deal key)) ∧
    (∀ row row1 : StagingRow,
      (submitStaging row = Except.ok row1 ∨ approveStaging row = Except.ok row1 ∨
        rejectStaging row = Except.ok row1 ∨ postStaging row = Except.ok row1) →
      StagingInvariant row → StagingInvariant row1) ∧
    (∀ (st : PipelineState) (deal : DealData) (trig : String),
      (∀ r ∈ st.rows, StagingInvariant r) →
      ∀ r ∈ (stage st deal trig).2.rows, StagingInvariant r) := by
  have hbuild : ∀ (rid : ℕ) (deal : DealData) (key : String),
      (buildDraftRow rid deal key).subtotal + (buildDraftRow rid deal key).tax_amount =
        (buildDraftRow rid deal key).total_amount ∧
      StagingInvariant (buildDraftRow rid deal key) := by
    intro rid deal key
    have h1 : (buildDraftRow rid deal key).total_amount =
        (buildDraftRow rid deal key).subtotal + (buildDraftRow rid deal key).tax_amount := rfl
    refine ⟨h1.symm, ?_, rfl⟩
    rw [h1]
    norm_num [epsRounding]
  refine ⟨hbuild, ?_, ?_⟩
  · intro row row1 hop hinv
    rcases hop with h | h | h | h <;>
      cases hs : row.status <;>
      simp [submitStaging, approveStaging, rejectStaging, postStaging, hs] at h <;>
      (rw [← h]; exact hinv)
  · intro st deal trig hall r hr
    cases h : findByKey st.rows (stagingKey deal.id trig) with
    | some row =>
      have hst : (stage st deal trig).2 = st := by
        simp [stage, h]
      rw [hst] at hr
      exact hall r hr
    | none =>
      have hst : (stage st deal trig).2 =
          { rows := buildDraftRow st.nextId deal (stagingKey deal.id trig) :: st.rows,
            nextId := st.nextId + 1 } := by
        simp [stage, h]
      rw [hst] at hr
      rcases List.mem_cons.mp hr with hcase | hcase
      · subst hcase
        exact (hbuild st.nextId deal (stagingKey deal.id trig)).2
      · exact hall r hcase

/-- Concrete instance of `stagingInvariant_spec`: submitting a freshly
generated draft row keeps the financial invariant. -/
theorem stagingInvariant_spec_witness :
    (submitStaging (buildDraftRow 0 ⟨"d", "c", [], 0⟩ "k") =
        Except.ok { buildDraftRow 0 ⟨"d", "c", [], 0⟩ "k" with status := .submitted } ∨
      approveStaging (buildDraftRow 0 ⟨"d", "c", [], 0⟩ "k") =
        Except.ok { buildDraftRow 0 ⟨"d", "c", [], 0⟩ "k" with status := .submitted } ∨
      rejectStaging (buildDraftRow 0 ⟨"d", "c", [], 0⟩ "k") =
        Except.ok { buildDraftRow 0 ⟨"d", "c", [], 0⟩ "k" with status := .submitted } ∨
      postStaging (buildDraftRow 0 ⟨"d", "c", [], 0⟩ "k") =
        Except.ok { buildDraftRow 0 ⟨"d", "c", [], 0⟩ "k" with status := .submitted }) ∧
    StagingInvariant { buildDraftRow 0 ⟨"d", "c", [], 0⟩ "k" with status := .submitted } := by
  constructor
  · left
    rfl
  · exact stagingInvariant_spec.2.1 (buildDraftRow 0 ⟨"d", "c", [], 0⟩ "k")
      { buildDraftRow 0 ⟨"d", "c", [], 0⟩ "k" with status := .submitted }
      (Or.inl (by rfl))
      (stagingInvariant_spec.1 0 ⟨"d", "c", [], 0⟩ "k").2

/-- A verdict produced by `checkRule` carries steps derived by `stepsFor`
from an observed value strictly above the violated limit. -/
theorem checkRule_steps (cfg : GuardrailConfig) (terms : DealTerms)
    (rule : PolicyRule) (r : String) (steps : List ApprovalStep)
    (h : checkRule cfg terms rule = some (.violated r steps)) :
    ∃ observed limit : ℚ, limit < observed ∧ steps = stepsFor cfg observed limit := by
  cases rule with
  | discountCeiling limit =>
    by_cases hlt : limit < terms.discount_percent
    · refine ⟨terms.discount_percent, limit, hlt, ?_⟩
      simp [checkRule, hlt] at h
      exact h.2.symm
    · simp [checkRule, hlt] at h
  | paymentTermsCeiling limit =>
    by_cases hlt : limit < terms.payment_terms_days
    · refine ⟨(terms.payment_terms_days : ℚ), (limit : ℚ), by exact_mod_cast hlt, ?_⟩
      simp [checkRule, hlt] at h
      exact h.2.symm
    · simp [checkRule, hlt] at h

/-- A verdict produced by `firstViolation` carries steps derived by
`stepsFor` from an observed value strictly above the violated limit. -/
theorem firstViolation_steps (cfg : GuardrailConfig) (terms : DealTerms)
    (l : List StoredPolicy) (r : String) (steps : List ApprovalStep)
    (h : firstViolation cfg terms l = some (.violated r steps)) :
    ∃ observed limit : ℚ, limit < observed ∧ steps = stepsFor cfg observed limit := by
  induction l with
  | nil => simp [firstViolation] at h
  | cons p rest ih =>
    cases hc : checkRule cfg terms p.rule with
    | some v =>
      rw [firstViolation, hc] at h
      cases h
      exact checkRule_steps cfg terms p.rule r steps hc
    | none =>
      rw [firstViolation, hc] at h
      exact ih h

/-- A verdict produced by `builtinVerdict` carries steps derived by
`stepsFor` from an observed value strictly above the violated limit. -/
theorem builtinVerdict_steps (cfg : GuardrailConfig) (terms : DealTerms)
    (r : String) (steps : List ApprovalStep)
    (h : builtinVerdict cfg terms = .violated r steps) :
    ∃ observed limit : ℚ, limit < observed ∧ steps = stepsFor cfg observed limit := by
  by_cases h1 : ceilingFor cfg terms.risk < terms.discount_percent
  · refine ⟨terms.discount_percent, ceilingFor cfg terms.risk, h1, ?_⟩
    simp [builtinVerdict, h1] at h
    exact h.2.symm
  · by_cases h2 : cfg.payment_terms_ceiling < terms.payment_terms_days
    · refine ⟨(terms.payment_terms_days : ℚ), (cfg.payment_terms_ceiling : ℚ),
        by exact_mod_cast h2, ?_⟩
      simp [builtinVerdict, h1, h2] at h
      exact h.2.symm
    · simp [builtinVerdict, h1, h2] at h

/-- The verdict list a simulation run returns is exactly the evaluator
mapped over the test deals. -/
theorem simGo_verdicts (cfg : GuardrailConfig) (snap : List StoredPolicy)
    (ds : List DealTerms) :
    (simGo cfg snap ds).verdicts = ds.map (fun d => evaluateGuardrail cfg d snap) := by
  induction ds with
  | nil => rfl
  | cons d rest ih => simp [simGo, ih]

/-- The violation count a simulation run accumulates equals the number of
violated verdicts it returns. -/
theorem simGo_count (cfg : GuardrailConfig) (snap : List StoredPolicy)
    (ds : List DealTerms) :
    (simGo cfg snap ds).violation_count =
      ((simGo cfg snap ds).verdicts.filter isViolation).length := by
  induction ds with
  | nil => rfl
  | cons d rest ih =>
    cases hv : isViolation (evaluateGuardrail cfg d snap) <;>
      simp [simGo, List.filter_cons, hv, ih, Nat.add_comm]

/-- Claim C4: for a deal with risk tier medium and a 25% discount, with no
custom policy active, the built-in risk-based discount ceiling table
(low=30, medium=20, high=10) applies and the verdict is violated with a
reason citing "25.0% exceeds 20.0%" and approval steps [finance_review]. -/
theorem guardrail_medium_default (amount : ℚ) (days : ℕ) (seg : String) :
    evaluateGuardrail defaultConfig
      { amount := amount, discount_percent := 25, payment_terms_days := days,
        risk := .medium, segment := seg } [] =
      .violated "discount_percent 25.0% exceeds 20.0%" [.finance_review] ∧
    (∃ pre post : String, "discount_percent 25.0% exceeds 20.0%" =
      pre ++ "25.0% exceeds 20.0%" ++ post) ∧
    ceilingFor defaultConfig .low = 30 ∧
    ceilingFor defaultConfig .medium = 20 ∧
    ceilingFor defaultConfig .high = 10 := by
  refine ⟨?_, ⟨"discount_percent ", "", by decide⟩, rfl, rfl, rfl⟩
  have hc : ceilingFor defaultConfig RiskTier.medium < (25 : ℚ) := by
    norm_num [ceilingFor, defaultConfig]
  have hs : (25 : ℚ) - ceilingFor defaultConfig RiskTier.medium ≤
      defaultConfig.secondary_escalation_threshold *
        ceilingFor defaultConfig RiskTier.medium := by
    norm_num [ceilingFor, defaultConfig]
  have h1 : violationReason "discount_percent" 25
      (ceilingFor defaultConfig RiskTier.medium) "%" =
      "discount_percent 25.0% exceeds 20.0%" := by decide
  have h2 : stepsFor defaultConfig 25 (ceilingFor defaultConfig RiskTier.medium) =
      [ApprovalStep.finance_review] := by
    rw [stepsFor, if_pos hs]
  simp [evaluateGuardrail, builtinVerdict, hc, h1, h2]

/-- Claim C5: approval steps are derived from how far the observed value
exceeds the limit — within the secondary escalation threshold only finance
review is required, beyond it executive approval is added; every violated
verdict's steps arise this way; and for risk=high at a 15% discount the
verdict is violated with steps [finance_review, executive_approval]. -/
theorem guardrail_escalation :
    (∀ (amount : ℚ) (days : ℕ) (seg : String),
      evaluateGuardrail defaultConfig
        { amount := amount, discount_percent := 15, payment_terms_days := days,
          risk := .high, segment := seg } [] =
        .violated "discount_percent 15.0% exceeds 10.0%"
          [.finance_review, .executive_approval]) ∧
    (∀ (cfg : GuardrailConfig) (observed limit : ℚ),
      observed - limit ≤ cfg.secondary_escalation_threshold * limit →
      stepsFor cfg observed limit = [.finance_review]) ∧
    (∀ (cfg : GuardrailConfig) (observed limit : ℚ),
      cfg.secondary_escalation_threshold * limit < observed - limit →
      stepsFor cfg observed limit = [.finance_review, .executive_approval]) ∧
    (∀ (cfg : GuardrailConfig) (terms : DealTerms) (snapshot : List StoredPolicy)
        (r : String) (steps : List ApprovalStep),
      evaluateGuardrail cfg terms snapshot = .violated r steps →
      ∃ observed limit : ℚ, limit < observed ∧
        steps = stepsFor cfg observed limit) := by
  refine ⟨?_, ?_, ?_, ?_⟩
  · intro amount days seg
    have hc : ceilingFor defaultConfig RiskTier.high < (15 : ℚ) := by
      norm_num [ceilingFor, defaultConfig]
    have hs : ¬((15 : ℚ) - ceilingFor defaultConfig RiskTier.high ≤
        defaultConfig.secondary_escalation_threshold *
          ceilingFor defaultConfig RiskTier.high) := by
      norm_num [ceilingFor, defaultConfig]
    have h1 : violationReason "discount_percent" 15
        (ceilingFor defaultConfig RiskTier.high) "%" =
        "discount_percent 15.0% exceeds 10.0%" := by decide
    have h2 : stepsFor defaultConfig 15 (ceilingFor defaultConfig RiskTier.high) =
        [ApprovalStep.finance_review, ApprovalStep.executive_approval] := by
      rw [stepsFor, if_neg hs]
    simp [evaluateGuardrail, builtinVerdict, hc, h1, h2]
  · intro cfg observed limit h
    simp [stepsFor, h]
  · intro cfg observed limit h
    simp [stepsFor, not_le.mpr h]
  · intro cfg terms snapshot r steps h
    rw [evaluateGuardrail] at h
    by_cases hm : (snapshot.filter (fun p => appliesTo p terms)).isEmpty
    · simp only [hm, if_true] at h
      exact builtinVerdict_steps cfg terms r steps h
    · simp only [hm, if_false] at h
      cases hf : firstViolation cfg terms
          (sortCandidates (snapshot.filter (fun p => appliesTo p terms))) with
      | some v =>
        rw [hf] at h
        cases h
        exact firstViolation_steps cfg terms _ r steps hf
      | none =>
        rw [hf] at h
        cases h

/-- Concrete instance of `guardrail_escalation`: at risk medium, a 25%
discount is within the secondary escalation threshold above the 20% limit,
so only finance review is required. -/
theorem guardrail_escalation_witness :
    (25 : ℚ) - 20 ≤ defaultConfig.secondary_escalation_threshold * 20 ∧
    stepsFor defaultConfig 25 20 = [.finance_review] := by
  constructor
  · norm_num [defaultConfig]
  · exact guardrail_escalation.2.1 defaultConfig 25 20 (by norm_num [defaultConfig])

/-- Claim C8: guardrail evaluation is deterministic — equal inputs yield
equal verdicts — and policy simulation reuses exactly this evaluation with
the proposed policy substituted into the store's snapshot, returns the
store untouched (no writes), and its aggregate statistics are a function
of the returned verdicts. -/
theorem simulation_pure :
    (∀ (cfg : GuardrailConfig) (t1 t2 : DealTerms) (s1 s2 : List StoredPolicy),
      t1 = t2 → s1 = s2 →
      evaluateGuardrail cfg t1 s1 = evaluateGuardrail cfg t2 s2) ∧
    (∀ (st : StoreState) (cfg : GuardrailConfig) (proposed : StoredPolicy)
        (ds : List DealTerms),
      (runSimulation st cfg proposed ds).2 = st ∧
      (runSimulation st cfg proposed ds).1.verdicts =
        ds.map (fun d => evaluateGuardrail cfg d
          (substituteProposed proposed (activeSnapshot st))) ∧
      (runSimulation st cfg proposed ds).1.violation_count =
        ((runSimulation st cfg proposed ds).1.verdicts.filter isViolation).length) := by
  refine ⟨?_, ?_⟩
  · rintro cfg t1 t2 s1 s2 rfl rfl
    rfl
  · intro st cfg proposed ds
    exact ⟨rfl, simGo_verdicts cfg _ ds, simGo_count cfg _ ds⟩

/-- Concrete instance of `simulation_pure`: evaluating the same concrete
deal twice against the empty snapshot returns equal verdicts. -/
theorem simulation_pure_witness :
    (⟨100, 25, 30, .medium, "s"⟩ : DealTerms) = ⟨100, 25, 30, .medium, "s"⟩ ∧
    evaluateGuardrail defaultConfig ⟨100, 25, 30, .medium, "s"⟩ [] =
      evaluateGuardrail defaultConfig ⟨100, 25, 30, .medium, "s"⟩ [] :=
  ⟨rfl, simulation_pure.1 defaultConfig _ _ [] [] rfl rfl⟩

/-- With pairwise-distinct ids, any member of the table carrying the
looked-up id is the row `find?` returned. -/
theorem find_eq_of_mem_of_unique (l : List StoredPolicy) (pid : ℕ)
    (tgt : StoredPolicy)
    (hnd : List.Pairwise (fun p q => p.id ≠ q.id) l)
    (hf : l.find? (fun p => p.id == pid) = some tgt) :
    ∀ a ∈ l, a.id = pid → a = tgt := by
  induction l with
  | nil => simp at hf
  | cons h t ih =>
    by_cases hh : h.id = pid
    · rw [List.find?_cons_of_pos (p := fun x => x.id == pid) t
        (by simpa using hh)] at hf
      cases hf
      intro a ha haid
      rcases List.mem_cons.mp ha with rfl | hmem
      · rfl
      · exact absurd (hh.trans haid.symm)
          ((List.pairwise_cons.mp hnd).1 a hmem)
    · rw [List.find?_cons_of_neg (p := fun x => x.id == pid) t
        (by simpa using hh)] at hf
      intro a ha haid
      rcases List.mem_cons.mp ha with rfl | hmem
      · exact absurd haid hh
      · exact ih (List.pairwise_cons.mp hnd).2 hf a hmem haid

/-- Every element's version is bounded by the running maximum fold. -/
theorem le_foldrMax (l : List StoredPolicy) (q : StoredPolicy) (hq : q ∈ l) :
    q.version ≤ l.foldr (fun p acc => max p.version acc) 0 := by
  induction l with
  | nil => cases hq
  | cons h t ih =>
    rcases List.mem_cons.mp hq with rfl | hmem
    · exact le_max_left _ _
    · exact le_trans (ih hmem) (le_max_right _ _)

/-- The activation transaction changes no row's identity, type, scope or
lineage. -/
theorem commitMap_fields (st : StoreState) (pid now : ℕ) (tgt p : StoredPolicy) :
    (commitMap st pid now tgt p).id = p.id ∧
    (commitMap st pid now tgt p).policy_type = p.policy_type ∧
    (commitMap st pid now tgt p).scope = p.scope ∧
    (commitMap st pid now tgt p).lineage = p.lineage := by
  unfold commitMap
  by_cases h1 : p.id = pid
  · simp [h1]
  · by_cases h2 : p.status = .active ∧ p.policy_type = tgt.policy_type ∧
        p.scope = tgt.scope
    · simp [h1, h2]
    · simp [h1, h2]

/-- A row active after the activation transaction is either the target or
an untouched active row whose (type, scope) differs from the target's. -/
theorem commitMap_active (st : StoreState) (pid now : ℕ) (tgt p : StoredPolicy)
    (h : (commitMap st pid now tgt p).status = .active) :
    p.id = pid ∨
    (commitMap st pid now tgt p = p ∧ p.status = .active ∧
      ¬(p.policy_type = tgt.policy_type ∧ p.scope = tgt.scope)) := by
  by_cases h1 : p.id = pid
  · exact Or.inl h1
  · right
    by_cases h2 : p.status = .active ∧ p.policy_type = tgt.policy_type ∧
        p.scope = tgt.scope
    · rw [commitMap, if_neg h1, if_pos h2] at h
      simp at h
    · rw [commitMap, if_neg h1, if_neg h2] at h
      rw [commitMap, if_neg h1, if_neg h2]
      exact ⟨rfl, h, fun hk => h2 ⟨h, hk.1, hk.2⟩⟩

/-- The target row becomes active with the next version in its lineage. -/
theorem commitMap_target (st : StoreState) (pid now : ℕ) (tgt p : StoredPolicy)
    (h : p.id = pid) :
    (commitMap st pid now tgt p).status = .active ∧
    (commitMap st pid now tgt p).version = lineageMaxVersion st tgt.lineage + 1 := by
  rw [commitMap, if_pos h]
  exact ⟨rfl, rfl⟩

/-- A non-target active row of the target's (type, scope) is superseded. -/
theorem commitMap_supersedes (st : StoreState) (pid now : ℕ) (tgt p : StoredPolicy)
    (hne : p.id ≠ pid) (hact : p.status = .active)
    (ht : p.policy_type = tgt.policy_type) (hs : p.scope = tgt.scope) :
    commitMap st pid now tgt p = { p with status := PolicyStatus.superseded } := by
  rw [commitMap, if_neg hne, if_pos ⟨hact, ht, hs⟩]

/-- Claim C7: the activation transaction preserves the at-most-one-active
policy per (type, scope) invariant (so two simultaneously active policies
in a scope are never left behind); acquiring the activation lock does not
touch the policy table; activation supersedes the prior active version of
the target's (type, scope) and installs the target as active with a
version strictly larger than every version in its lineage; and of two
racing activations for the same (type, scope), the first acquires the
lock and the second fails with ConflictError. -/
theorem policy_activation_spec :
    (∀ (st : StoreState) (pid now : ℕ) (st1 : StoreState),
      IdsUnique st → ActiveUnique st →
      commitActivate st pid now = Except.ok st1 → ActiveUnique st1) ∧
    (∀ (st : StoreState) (pid : ℕ) (st1 : StoreState),
      beginActivate st pid = Except.ok st1 →
      st1.policies = st.policies ∧ (ActiveUnique st → ActiveUnique st1)) ∧
    (∀ (st : StoreState) (pid now : ℕ) (tgt : StoredPolicy) (st1 : StoreState),
      findPolicy st pid = some tgt →
      commitActivate st pid now = Except.ok st1 →
      (∀ p ∈ st.policies, p.id ≠ pid → p.status = .active →
        p.policy_type = tgt.policy_type → p.scope = tgt.scope →
        { p with status := PolicyStatus.superseded } ∈ st1.policies) ∧
      (∃ act ∈ st1.policies, act.id = pid ∧ act.status = .active ∧
        act.lineage = tgt.lineage ∧
        ∀ q ∈ st.policies, q.lineage = tgt.lineage → q.version < act.version)) ∧
    (∀ (st : StoreState) (pidA pidB : ℕ) (tA tB : StoredPolicy),
      findPolicy st pidA = some tA → findPolicy st pidB = some tB →
      tA.policy_type = tB.policy_type → tA.scope = tB.scope →
      (tA.policy_type, tA.scope) ∉ st.locks →
      ∃ st1, beginActivate st pidA = Except.ok st1 ∧
        beginActivate st1 pidB = Except.error OperationError.ConflictError ∧
        st1.policies = st.policies) := by
  refine ⟨?_, ?_, ?_, ?_⟩
  · intro st pid now st1 hid hau hc
    cases hf : findPolicy st pid with
    | none => simp [commitActivate, hf] at hc
    | some tgt =>
      simp only [commitActivate, hf, Except.ok.injEq] at hc
      subst hc
      refine List.pairwise_map.mpr ?_
      refine List.Pairwise.imp_of_mem ?_ (List.Pairwise.and hid hau)
      intro a b ha hb hab
      obtain ⟨hneid, hnact⟩ := hab
      rintro ⟨hfa, hfb, hft, hfs⟩
      obtain ⟨hida, htypea, hscopea, hlina⟩ := commitMap_fields st pid now tgt a
      obtain ⟨hidb, htypeb, hscopeb, hlinb⟩ := commitMap_fields st pid now tgt b
      rw [htypea, htypeb] at hft
      rw [hscopea, hscopeb] at hfs
      by_cases haid : a.id = pid
      · by_cases hbid : b.id = pid
        · exact hneid (haid.trans hbid.symm)
        · have hatgt : a = tgt :=
            find_eq_of_mem_of_unique st.policies pid tgt hid hf a ha haid
          rcases commitMap_active st pid now tgt b hfb with hb1 | ⟨hbeq, hbact, hbkey⟩
          · exact hbid hb1
          · apply hbkey
            constructor
            · rw [← hft, hatgt]
            · rw [← hfs, hatgt]
      · by_cases hbid : b.id = pid
        · have hbtgt : b = tgt :=
            find_eq_of_mem_of_unique st.policies pid tgt hid hf b hb hbid
          rcases commitMap_active st pid now tgt a hfa with ha1 | ⟨haeq, haact, hakey⟩
          · exact haid ha1
          · apply hakey
            constructor
            · rw [hft, hbtgt]
            · rw [hfs, hbtgt]
        · rcases commitMap_active st pid now tgt a hfa with ha1 | ⟨haeq, haact, hakey⟩
          · exact haid ha1
          rcases commitMap_active st pid now tgt b hfb with hb1 | ⟨hbeq, hbact, hbkey⟩
          · exact hbid hb1
          exact hnact ⟨haact, hbact, hft, hfs⟩
  · intro st pid st1 hb
    cases hf : findPolicy st pid with
    | none => simp [beginActivate, hf] at hb
    | some p =>
      simp only [beginActivate, hf] at hb
      by_cases hl : (p.policy_type, p.scope) ∈ st.locks
      · rw [if_pos hl] at hb
        cases hb
      · rw [if_neg hl] at hb
        cases hb
        exact ⟨rfl, fun h => h⟩
  · intro st pid now tgt st1 hf hc
    simp only [commitActivate, hf, Except.ok.injEq] at hc
    subst hc
    constructor
    · intro p hp hne hact ht hs
      rw [← commitMap_supersedes st pid now tgt p hne hact ht hs]
      exact List.mem_map_of_mem _ hp
    · have htgt_mem : tgt ∈ st.policies := List.mem_of_find?_eq_some hf
      have htgt_id : tgt.id = pid := by
        have h := List.find?_some hf
        simpa using h
      refine ⟨commitMap st pid now tgt tgt, List.mem_map_of_mem _ htgt_mem,
        ?_, ?_, ?_, ?_⟩
      · rw [(commitMap_fields st pid now tgt tgt).1, htgt_id]
      · exact (commitMap_target st pid now tgt tgt htgt_id).1
      · exact (commitMap_fields st pid now tgt tgt).2.2.2
      · intro q hq hlin
        rw [(commitMap_target st pid now tgt tgt htgt_id).2]
        have hle : q.version ≤ lineageMaxVersion st tgt.lineage := by
          unfold lineageMaxVersion
          apply le_foldrMax
          refine List.mem_filter.mpr ⟨hq, ?_⟩
          simpa using hlin
        omega
  · intro st pidA pidB tA tB hfA hfB htype hscope hnl
    refine ⟨{ st with locks := (tA.policy_type, tA.scope) :: st.locks }, ?_, ?_, rfl⟩
    · simp only [beginActivate, hfA]
      rw [if_neg hnl]
    · have hfB1 : findPolicy
          { st with locks := (tA.policy_type, tA.scope) :: st.locks } pidB =
          some tB := hfB
      have hmem : (tB.policy_type, tB.scope) ∈
          (tA.policy_type, tA.scope) :: st.locks := by
        rw [← htype, ← hscope]
        exact List.mem_cons_self _ _
      simp only [beginActivate, hfB1]
      rw [if_pos hmem]

/-- Concrete instance of `policy_activation_spec`: with two draft discount
policies of the same wildcard scope and no lock held, the first activation
acquires the lock and the racing second one fails with ConflictError. -/
theorem policy_activation_spec_witness :
    findPolicy demoStore 1 = some demoPolicyA ∧
    findPolicy demoStore 2 = some demoPolicyB ∧
    demoPolicyA.policy_type = demoPolicyB.policy_type ∧
    demoPolicyA.scope = demoPolicyB.scope ∧
    (demoPolicyA.policy_type, demoPolicyA.scope) ∉ demoStore.locks ∧
    ∃ st1, beginActivate demoStore 1 = Except.ok st1 ∧
      beginActivate st1 2 = Except.error OperationError.ConflictError ∧
      st1.policies = demoStore.policies := by
  refine ⟨rfl, rfl, rfl, rfl, by simp [demoStore], ?_⟩
  exact policy_activation_spec.2.2.2 demoStore 1 2 demoPolicyA demoPolicyB
    rfl rfl rfl rfl (by simp [demoStore])

end DealDesk

